import Mathlib

/-!
A shallow embedding of the kanban drag-and-drop synchronization engine of
`src/static/js/kanban-board.js` (StyEnvy/envy-games), together with proofs
about its optimistic update, server reconciliation and rollback paths.

The DOM fragment the engine touches is modelled as a flat list of column
elements (each an ordered list of child elements) plus a flat list of count
badge elements.  Element references are modelled by a node identity field;
column element references are modelled by the `data-column-id` value, which
the spec requires to be unique per column.  The network is an oracle mapping
the issued request to its outcome (transport rejection, JSON parse failure,
or a parsed response), so every code path of the drop handler is a total
function of that oracle.
-/

/-- A DOM element that can appear as a child of a kanban column.  `nodeId`
models DOM node identity; `taskId` is the `data-task-id` attribute value
(`none` when the attribute is absent). -/
structure Elem where
  nodeId : Nat
  taskId : Option String
deriving DecidableEq

/-- A column element: `columnId` is the `data-column-id` value, `canDrag`
the `dataset.canDrag` value (`none` when absent), `children` its child
elements in document order. -/
structure Column where
  columnId : String
  canDrag : Option String
  children : List Elem
deriving DecidableEq

/-- A count badge element, located by its `data-column-count` attribute;
`text` is its `textContent`. -/
structure Badge where
  forColumn : String
  text : String
deriving DecidableEq

/-- The DOM state the engine reads and mutates. -/
structure Dom where
  columns : List Column
  badges : List Badge
deriving DecidableEq

/-- Modify the first element satisfying `p`, as mutating the element that a
`querySelector` result or a held element reference points at does. -/
def updateFirst (p : α → Bool) (f : α → α) : List α → List α
  | [] => []
  | x :: xs => if p x then f x :: xs else x :: updateFirst p f xs

/-- The column element carrying a given `data-column-id`. -/
def Dom.colRef (dom : Dom) (colId : String) : Option Column :=
  dom.columns.find? (fun c => c.columnId == colId)

/-- `column.children` of the column with the given id (empty when absent). -/
def childrenOf (dom : Dom) (colId : String) : List Elem :=
  match dom.colRef colId with
  | some c => c.children
  | none => []

/-- Whether a column element with the given id exists. -/
def colExists (dom : Dom) (colId : String) : Bool :=
  dom.columns.any (fun c => c.columnId == colId)

/-- Apply `f` to the child list of the (first) column with the given id. -/
def Dom.mapCol (dom : Dom) (colId : String) (f : List Elem → List Elem) : Dom :=
  { dom with
    columns := updateFirst (fun c => c.columnId == colId)
      (fun c => { c with children := f c.children }) dom.columns }

/-- Detach a node (by identity) from every column: a DOM node has exactly
one parent, so this models removing it from its current parent. -/
def Dom.removeNode (dom : Dom) (node : Elem) : Dom :=
  { dom with
    columns := dom.columns.map
      (fun c => { c with children := c.children.filter (fun e => e.nodeId != node.nodeId) }) }

/-- Insert `node` directly before the element with `r`'s identity. -/
def insertBeforeList (node r : Elem) : List Elem → List Elem
  | [] => [node]
  | e :: es => if e.nodeId == r.nodeId then node :: e :: es else e :: insertBeforeList node r es

/-- The next sibling of `node` in a child list. -/
def nextSiblingIn (node : Elem) : List Elem → Option Elem
  | [] => none
  | e :: es => if e.nodeId == node.nodeId then es.head? else nextSiblingIn node es

/-- DOM `parent.insertBefore(node, ref)` on the column `colId`, with
`ref = none` for `appendChild`.  Per the DOM insertion algorithm the node is
first detached from its current parent, and a reference child that is the
node itself is replaced by its next sibling before detaching. -/
def Dom.insertBefore (dom : Dom) (colId : String) (node : Elem) (ref : Option Elem) : Dom :=
  let ref2 : Option Elem :=
    match ref with
    | some r =>
        if r.nodeId == node.nodeId then nextSiblingIn node (childrenOf dom colId) else some r
    | none => none
  let dom2 := dom.removeNode node
  match ref2 with
  | some r => dom2.mapCol colId (insertBeforeList node r)
  | none => dom2.mapCol colId (fun ls => ls ++ [node])

/-- The text of the first badge whose `data-column-count` equals `colId`
(the element `document.querySelector('[data-column-count="..."]')` finds). -/
def badgeText (dom : Dom) (colId : String) : Option String :=
  (dom.badges.find? (fun b => b.forColumn == colId)).map (fun b => b.text)

/-- Whether some badge element carries `data-column-count = colId`. -/
def hasBadge (dom : Dom) (colId : String) : Bool :=
  dom.badges.any (fun b => b.forColumn == colId)

/-- The module-level drag session globals `draggedElement`,
`originalColumn`, `originalIndex` (all `null` before any gesture). -/
structure Session where
  draggedElement : Option Elem
  originalColumn : Option String
  originalIndex : Option Nat
deriving DecidableEq

/-- The gesture-library event passed to `onStart`/`onEnd`: the dragged
`item`, the source and destination columns (`evt.from`, `evt.to`, by their
`data-column-id`), and the old and new child indices. -/
structure DragEvent where
  item : Elem
  fromId : String
  toId : String
  oldIndex : Nat
  newIndex : Nat
deriving DecidableEq

/-- The arguments of `initializeKanbanBoard` the drop handler closes over. -/
structure Config where
  csrfToken : String
  moveEndpoint : String
deriving DecidableEq

/-- The move request as `fetch` receives it. -/
structure Request where
  url : String
  method : String
  csrfToken : String
  contentType : String
  accept : String
  body : String
deriving DecidableEq

/-- A parsed move response: `{ ok, error?, from_count?, to_count? }`. -/
structure MoveResponse where
  ok : Bool
  error : Option String
  from_count : Option Int
  to_count : Option Int
deriving DecidableEq

/-- How the awaited network round-trip can end: the `fetch` promise
rejects, `response.json()` rejects, or a response parses. -/
inductive FetchOutcome where
  | reject (msg : String)
  | parseError (msg : String)
  | parsed (data : MoveResponse)
deriving DecidableEq

/-- A thrown JS `Error`, reduced to its `message`. -/
structure JsError where
  message : String
deriving DecidableEq

/-- JS string coercion of a possibly-`undefined` dataset value. -/
def jsStr : Option String → String
  | some s => s
  | none => "undefined"

/-- JS `a || b` for an optional string `a`: both `undefined` and `""` are
falsy. -/
def jsOrD : Option String → String → String
  | some s, d => if s == "" then d else s
  | none, d => d

/-- JS `a || b` for strings: `""` is falsy. -/
def jsOrS (s d : String) : String := if s == "" then d else s

/-- Whether `pat` occurs at the head of the character list. -/
def matchesAt : List Char → List Char → Bool
  | [], _ => true
  | _ :: _, [] => false
  | p :: ps, c :: cs => p == c && matchesAt ps cs

/-- Replace the first occurrence of `pat` (searching left to right). -/
def replaceFirstAux (pat rep : List Char) : List Char → List Char
  | [] => if matchesAt pat [] then rep else []
  | c :: cs =>
      if matchesAt pat (c :: cs) then rep ++ List.drop pat.length (c :: cs)
      else c :: replaceFirstAux pat rep cs

/-- JS `s.replace(pat, rep)` with a plain-string pattern: only the first
occurrence is replaced; `s` is returned unchanged when `pat` is absent. -/
def replaceFirst (s pat rep : String) : String :=
  String.mk (replaceFirstAux pat.data rep.data s.data)

/-- The one request `onEnd` issues:
`fetch(moveEndpoint.replace('\x7btaskId\x7d', taskId), { method: 'POST', headers, body })`
with the CSRF token header and the form-encoded column/position body. -/
def mkMoveRequest (cfg : Config) (evt : DragEvent) : Request :=
  { url := replaceFirst cfg.moveEndpoint "\x7btaskId\x7d" (jsStr evt.item.taskId)
    method := "POST"
    csrfToken := cfg.csrfToken
    contentType := "application/x-www-form-urlencoded"
    accept := "application/json"
    body := "column_id=" ++ evt.toId ++ "&position=" ++ toString evt.newIndex }

/-- `updateBadgeCount(columnId, count)`: set the `textContent` of the first
badge whose `data-column-count` matches, if one exists. -/
def updateBadgeCount (dom : Dom) (colId : String) (count : Int) : Dom :=
  { dom with
    badges := updateFirst (fun b => b.forColumn == colId)
      (fun b => { b with text := toString count }) dom.badges }

/-- `column.querySelectorAll('[data-task-id]').length` for the column with
the given id. -/
def taskCount (dom : Dom) (colId : String) : Int :=
  ((childrenOf dom colId).filter (fun e => e.taskId.isSome)).length

/-- `updateColumnCounts(fromColumn, toColumn)`: recount and redisplay the
badge of `fromColumn`, and of `toColumn` when it is a different element. -/
def updateColumnCounts (dom : Dom) (fromCol toCol : Option String) : Dom :=
  let dom1 :=
    match fromCol with
    | some f => updateBadgeCount dom f (taskCount dom f)
    | none => dom
  match toCol with
  | some t => if some t == fromCol then dom1 else updateBadgeCount dom1 t (taskCount dom1 t)
  | none => dom1

/-- `revertMove(evt)`: when the session globals are set, reinsert the
dragged element into the recorded origin column before the child currently
found at the recorded origin index (appending when that index is out of
range), then recount `evt.to` and the origin column. -/
def revertMove (dom : Dom) (s : Session) (evt : DragEvent) : Dom :=
  match s.originalColumn, s.draggedElement with
  | some oc, some d =>
      let children := childrenOf dom oc
      let referenceNode : Option Elem :=
        match s.originalIndex with
        | some i => children[i]?
        | none => none
      let dom1 := dom.insertBefore oc d referenceNode
      updateColumnCounts dom1 (some evt.toId) (some oc)
  | _, _ => dom

/-- The success branch of `onEnd`'s `try`: apply each of `from_count` /
`to_count` to the matching badge exactly when the field is present. -/
def commitCounts (dom : Dom) (evt : DragEvent) (data : MoveResponse) : Dom :=
  let dom1 :=
    match data.from_count with
    | some n => updateBadgeCount dom evt.fromId n
    | none => dom
  match data.to_count with
  | some n => updateBadgeCount dom1 evt.toId n
  | none => dom1

/-- The body of `onEnd`'s `try` block after the optimistic count update: a
rejected `fetch` or `response.json()` propagates as a thrown error, a
response with `!data.ok` throws `new Error(data.error || 'Move failed')`,
and a response with `ok` commits the server counts. -/
def tryBlock (dom : Dom) (evt : DragEvent) : FetchOutcome → Except JsError Dom
  | .reject m => .error ⟨m⟩
  | .parseError m => .error ⟨m⟩
  | .parsed data =>
      if !data.ok then .error ⟨jsOrD data.error "Move failed"⟩
      else .ok (commitCounts dom evt data)

/-- What a completed drop handler produced: the final DOM, the list of
network requests issued, the notifications shown (message, type), and
whether the `catch` branch (which runs `revertMove`) executed.  `onEnd` is
a total function of the network oracle: its `catch` absorbs every failure,
so no exception escapes the handler. -/
structure DropResult where
  dom : Dom
  requests : List Request
  notifications : List (String × String)
  reverted : Bool
deriving DecidableEq

/-- The `onEnd` drop handler: optimistic recount of `evt.from`/`evt.to`,
one `fetch` of the move request, then either the server-count commit or the
`catch` branch (`revertMove` followed by `showNotification(...,'error')`). -/
def onEnd (dom : Dom) (s : Session) (cfg : Config) (evt : DragEvent)
    (net : Request → FetchOutcome) : DropResult :=
  let dom0 := updateColumnCounts dom (some evt.fromId) (some evt.toId)
  let req := mkMoveRequest cfg evt
  match tryBlock dom0 evt (net req) with
  | .ok dom1 => { dom := dom1, requests := [req], notifications := [], reverted := false }
  | .error e =>
      { dom := revertMove dom0 s evt
        requests := [req]
        notifications := [(jsOrS e.message "Could not move task", "error")]
        reverted := true }

/-- The `onStart` handler: snapshot the dragged item, its origin column and
its origin child index into the session globals. -/
def onStart (evt : DragEvent) : Session :=
  { draggedElement := some evt.item
    originalColumn := some evt.fromId
    originalIndex := some evt.oldIndex }

/-- Whether the round-trip outcome takes the `catch` path. -/
def FetchOutcome.isFailure : FetchOutcome → Bool
  | .reject _ => true
  | .parseError _ => true
  | .parsed data => !data.ok

/-- Modelled from the spec: the drag-gesture library is an external
collaborator ("the DOM already reflects the drop because the gesture
library performs the visual move itself", §4.3), so the physical move it
performs before `onEnd` fires is modelled here: the dragged item leaves its
source position and lands at child index `newIndex` of `evt.to`. -/
def performDrop (dom : Dom) (evt : DragEvent) : Dom :=
  (dom.removeNode evt.item).mapCol evt.toId
    (fun ls => ls.take evt.newIndex ++ evt.item :: ls.drop evt.newIndex)

/-- The child index at which a node currently sits in a child list. -/
def nodeIndexIn (ls : List Elem) (node : Elem) : Option Nat :=
  ls.findIdx? (fun e => e.nodeId == node.nodeId)

/-- A board root element with its column descendants. -/
structure Board where
  id : String
  columns : List Column
deriving DecidableEq

/-- The page, as far as `initializeKanbanBoard` looks at it. -/
structure Document where
  boards : List Board
deriving DecidableEq

/-- `document.getElementById(boardId)` over the modelled page. -/
def getElementById (doc : Document) (id : String) : Option Board :=
  doc.boards.find? (fun b => b.id == id)

/-- `initializeKanbanBoard(boardId, csrfToken, moveEndpoint)`: find the
board root, return silently when absent, otherwise register a `Sortable`
drag handler on every column whose `dataset.canDrag === 'true'`.  The
function mutates nothing, so it returns the document unchanged together
with the list of columns it registered. -/
def initializeKanbanBoard (doc : Document) (boardId : String)
    (csrfToken moveEndpoint : String) : Document × List Column :=
  match getElementById doc boardId with
  | none => (doc, [])
  | some board => (doc, board.columns.filter (fun c => c.canDrag == some "true"))


/-! ### Helper lemmas about `updateFirst` and the badge list -/

theorem updateFirst_eq_of_forall {p : α → Bool} {f : α → α} :
    ∀ {l : List α}, (∀ x ∈ l, p x = false) → updateFirst p f l = l := by
  intro l h
  induction l with
  | nil => rfl
  | cons x xs ih =>
      have hx : p x = false := h x (List.mem_cons_self x xs)
      show (if p x then f x :: xs else x :: updateFirst p f xs) = x :: xs
      rw [hx]
      simp only [Bool.false_eq_true, if_false]
      exact congrArg (x :: ·) (ih fun y hy => h y (List.mem_cons_of_mem x hy))

theorem any_updateFirst_badge (c c' : String) (n : Int) : ∀ l : List Badge,
    ((updateFirst (fun b => b.forColumn == c) (fun b => { b with text := toString n }) l).any
        (fun b => b.forColumn == c'))
      = l.any (fun b => b.forColumn == c') := by
  intro l
  induction l with
  | nil => rfl
  | cons b bs ih =>
      show ((if b.forColumn == c then _ :: bs else b :: updateFirst _ _ bs).any _) = _
      by_cases hb : (b.forColumn == c) = true
      · rw [hb]
        simp only [if_true, List.any_cons]
      · rw [Bool.not_eq_true] at hb
        rw [hb]
        simp only [Bool.false_eq_true, if_false, List.any_cons, ih]

theorem find?_updateFirst_badge_self (c : String) (n : Int) : ∀ l : List Badge,
    l.any (fun b => b.forColumn == c) = true →
      (((updateFirst (fun b => b.forColumn == c) (fun b => { b with text := toString n }) l).find?
          (fun b => b.forColumn == c)).map (fun b => b.text))
        = some (toString n) := by
  intro l h
  induction l with
  | nil => simp at h
  | cons b bs ih =>
      show ((((if b.forColumn == c then _ :: bs else b :: updateFirst _ _ bs)).find? _).map _) = _
      by_cases hb : (b.forColumn == c) = true
      · rw [hb]
        simp only [if_true]
        simp [List.find?_cons, hb]
      · rw [Bool.not_eq_true] at hb
        rw [hb]
        simp only [Bool.false_eq_true, if_false]
        simp only [List.find?_cons, hb, Bool.false_eq_true, if_false]
        simp only [List.any_cons, hb, Bool.false_or] at h
        exact ih h

theorem find?_updateFirst_badge_ne (c c' : String) (n : Int) (hcc : c' ≠ c) :
    ∀ l : List Badge,
      ((updateFirst (fun b => b.forColumn == c) (fun b => { b with text := toString n }) l).find?
          (fun b => b.forColumn == c'))
        = l.find? (fun b => b.forColumn == c') := by
  intro l
  induction l with
  | nil => rfl
  | cons b bs ih =>
      show ((if b.forColumn == c then _ :: bs else b :: updateFirst _ _ bs).find? _) = _
      by_cases hb : (b.forColumn == c) = true
      · have hbc : b.forColumn = c := by simpa using hb
        have hb' : (b.forColumn == c') = false := by
          simp [hbc]
          exact fun hh => hcc hh.symm
        rw [hb]
        simp only [if_true]
        simp only [List.find?_cons, hb', Bool.false_eq_true, if_false]
      · rw [Bool.not_eq_true] at hb
        rw [hb]
        simp only [Bool.false_eq_true, if_false]
        by_cases hb' : (b.forColumn == c') = true
        · simp only [List.find?_cons, hb', if_true]
        · rw [Bool.not_eq_true] at hb'
          simp only [List.find?_cons, hb', Bool.false_eq_true, if_false]
          exact ih

/-! ### Field-preservation and badge lemmas at the `Dom` level -/

theorem columns_updateBadgeCount (dom : Dom) (c : String) (n : Int) :
    (updateBadgeCount dom c n).columns = dom.columns := rfl

theorem childrenOf_updateBadgeCount (dom : Dom) (c c' : String) (n : Int) :
    childrenOf (updateBadgeCount dom c n) c' = childrenOf dom c' := rfl

theorem taskCount_updateBadgeCount (dom : Dom) (c c' : String) (n : Int) :
    taskCount (updateBadgeCount dom c n) c' = taskCount dom c' := rfl

theorem hasBadge_updateBadgeCount (dom : Dom) (c c' : String) (n : Int) :
    hasBadge (updateBadgeCount dom c n) c' = hasBadge dom c' :=
  any_updateFirst_badge c c' n dom.badges

theorem badgeText_updateBadgeCount_self (dom : Dom) (c : String) (n : Int)
    (h : hasBadge dom c = true) :
    badgeText (updateBadgeCount dom c n) c = some (toString n) :=
  find?_updateFirst_badge_self c n dom.badges h

theorem badgeText_updateBadgeCount_ne (dom : Dom) (c c' : String) (n : Int)
    (h : c' ≠ c) :
    badgeText (updateBadgeCount dom c n) c' = badgeText dom c' := by
  show ((updateFirst _ _ dom.badges).find? _).map _ = _
  rw [find?_updateFirst_badge_ne c c' n h dom.badges]
  rfl

theorem updateBadgeCount_eq_of_no_badge (dom : Dom) (c : String) (n : Int)
    (h : hasBadge dom c = false) :
    updateBadgeCount dom c n = dom := by
  have : updateFirst (fun b => b.forColumn == c)
      (fun b => { b with text := toString n }) dom.badges = dom.badges := by
    apply updateFirst_eq_of_forall
    intro b hb
    by_contra hbc
    rw [Bool.not_eq_false] at hbc
    have : hasBadge dom c = true := by
      unfold hasBadge
      exact List.any_eq_true.mpr ⟨b, hb, hbc⟩
    rw [this] at h
    exact Bool.true_eq_false.mp h
  show { dom with badges := _ } = dom
  rw [this]

/-! ### Lemmas about `updateColumnCounts` -/

theorem columns_updateColumnCounts (dom : Dom) (f t : Option String) :
    (updateColumnCounts dom f t).columns = dom.columns := by
  unfold updateColumnCounts
  cases f <;> cases t <;> simp only [] <;> try rfl
  all_goals
    first
    | rfl
    | (split <;> rfl)

theorem childrenOf_eq_of_columns_eq {d1 d2 : Dom} (h : d1.columns = d2.columns)
    (c : String) : childrenOf d1 c = childrenOf d2 c := by
  unfold childrenOf Dom.colRef
  rw [h]

theorem taskCount_eq_of_columns_eq {d1 d2 : Dom} (h : d1.columns = d2.columns)
    (c : String) : taskCount d1 c = taskCount d2 c := by
  unfold taskCount
  rw [childrenOf_eq_of_columns_eq h]

theorem taskCount_updateColumnCounts (dom : Dom) (f t : Option String) (c : String) :
    taskCount (updateColumnCounts dom f t) c = taskCount dom c :=
  taskCount_eq_of_columns_eq (columns_updateColumnCounts dom f t) c

theorem hasBadge_updateColumnCounts (dom : Dom) (f t : Option String) (c : String) :
    hasBadge (updateColumnCounts dom f t) c = hasBadge dom c := by
  unfold updateColumnCounts
  cases f <;> cases t <;>
    simp only [hasBadge_updateBadgeCount] <;>
    try rfl
  all_goals
    split <;> simp only [hasBadge_updateBadgeCount]

theorem badgeText_updateColumnCounts_from (dom : Dom) (f t : String)
    (h : hasBadge dom f = true) :
    badgeText (updateColumnCounts dom (some f) (some t)) f
      = some (toString (taskCount dom f)) := by
  unfold updateColumnCounts
  by_cases htf : t = f
  · subst htf
    simp only [beq_self_eq_true, if_true]
    exact badgeText_updateBadgeCount_self dom t _ h
  · have hc : (some t == some f) = false := by simp [htf]
    simp only [hc, Bool.false_eq_true, if_false]
    rw [badgeText_updateBadgeCount_ne _ t f _ (fun hh => htf hh.symm)]
    exact badgeText_updateBadgeCount_self dom f _ h

theorem badgeText_updateColumnCounts_to (dom : Dom) (f t : String)
    (h : hasBadge dom t = true) :
    badgeText (updateColumnCounts dom (some f) (some t)) t
      = some (toString (taskCount dom t)) := by
  by_cases htf : t = f
  · subst htf
    exact badgeText_updateColumnCounts_from dom t t h
  · unfold updateColumnCounts
    have hc : (some t == some f) = false := by simp [htf]
    simp only [hc, Bool.false_eq_true, if_false]
    rw [taskCount_updateBadgeCount]
    exact badgeText_updateBadgeCount_self _ t _
      (by rw [hasBadge_updateBadgeCount]; exact h)

theorem childrenOf_updateColumnCounts (dom : Dom) (f t : Option String) (c : String) :
    childrenOf (updateColumnCounts dom f t) c = childrenOf dom c :=
  childrenOf_eq_of_columns_eq (columns_updateColumnCounts dom f t) c

/-! ### Lemmas about node removal and insertion -/

theorem badges_insertBefore (dom : Dom) (c : String) (x : Elem) (r : Option Elem) :
    (dom.insertBefore c x r).badges = dom.badges := by
  unfold Dom.insertBefore
  simp only []
  split <;> rfl

theorem hasBadge_insertBefore (dom : Dom) (c : String) (x : Elem) (r : Option Elem)
    (c' : String) : hasBadge (dom.insertBefore c x r) c' = hasBadge dom c' := by
  unfold hasBadge
  rw [badges_insertBefore]

theorem colExists_removeNode (dom : Dom) (x : Elem) (c : String) :
    colExists (dom.removeNode x) c = colExists dom c := by
  unfold colExists Dom.removeNode
  simp only [List.any_map]
  rfl

theorem childrenOf_removeNode (dom : Dom) (x : Elem) (c : String) :
    childrenOf (dom.removeNode x) c
      = (childrenOf dom c).filter (fun e => e.nodeId != x.nodeId) := by
  unfold childrenOf Dom.colRef Dom.removeNode
  simp only []
  generalize dom.columns = l
  induction l with
  | nil => rfl
  | cons col cols ih =>
      by_cases hc : (col.columnId == c) = true
      · simp [List.find?_cons, hc]
      · rw [Bool.not_eq_true] at hc
        simp only [List.map_cons, List.find?_cons, hc, Bool.false_eq_true, if_false]
        exact ih

theorem childrenOf_mapCol_self (dom : Dom) (c : String) (f : List Elem → List Elem)
    (h : colExists dom c = true) :
    childrenOf (dom.mapCol c f) c = f (childrenOf dom c) := by
  unfold childrenOf Dom.colRef Dom.mapCol
  unfold colExists at h
  revert h
  generalize dom.columns = l
  intro h
  induction l with
  | nil => simp at h
  | cons col cols ih =>
      by_cases hc : (col.columnId == c) = true
      · show (match List.find? _ (if col.columnId == c then _ :: cols else col :: updateFirst _ _ cols) with
          | some cc => cc.children
          | none => []) = _
        rw [hc]
        simp only [if_true]
        simp [List.find?_cons, hc]
      · rw [Bool.not_eq_true] at hc
        show (match List.find? _ (if col.columnId == c then _ :: cols else col :: updateFirst _ _ cols) with
          | some cc => cc.children
          | none => []) = _
        rw [hc]
        simp only [Bool.false_eq_true, if_false]
        simp only [List.find?_cons, hc, Bool.false_eq_true, if_false]
        simp only [List.any_cons, hc, Bool.false_or] at h
        exact ih h

/-! ### Shape lemmas for `tryBlock` and `onEnd` -/

theorem tryBlock_reject (dom : Dom) (evt : DragEvent) (m : String) :
    tryBlock dom evt (.reject m) = .error ⟨m⟩ := rfl

theorem tryBlock_parseError (dom : Dom) (evt : DragEvent) (m : String) :
    tryBlock dom evt (.parseError m) = .error ⟨m⟩ := rfl

theorem tryBlock_not_ok (dom : Dom) (evt : DragEvent) (d : MoveResponse)
    (h : d.ok = false) :
    tryBlock dom evt (.parsed d) = .error ⟨jsOrD d.error "Move failed"⟩ := by
  have he : tryBlock dom evt (.parsed d)
      = if (!d.ok) = true then .error ⟨jsOrD d.error "Move failed"⟩
        else .ok (commitCounts dom evt d) := rfl
  rw [he, h]
  rfl

theorem tryBlock_ok (dom : Dom) (evt : DragEvent) (d : MoveResponse)
    (h : d.ok = true) :
    tryBlock dom evt (.parsed d) = .ok (commitCounts dom evt d) := by
  have he : tryBlock dom evt (.parsed d)
      = if (!d.ok) = true then .error ⟨jsOrD d.error "Move failed"⟩
        else .ok (commitCounts dom evt d) := rfl
  rw [he, h]
  rfl

theorem onEnd_eq_error (dom : Dom) (s : Session) (cfg : Config) (evt : DragEvent)
    (net : Request → FetchOutcome) (e : JsError)
    (h : tryBlock (updateColumnCounts dom (some evt.fromId) (some evt.toId)) evt
        (net (mkMoveRequest cfg evt)) = .error e) :
    onEnd dom s cfg evt net =
      { dom := revertMove (updateColumnCounts dom (some evt.fromId) (some evt.toId)) s evt
        requests := [mkMoveRequest cfg evt]
        notifications := [(jsOrS e.message "Could not move task", "error")]
        reverted := true } := by
  unfold onEnd
  simp only []
  rw [h]

theorem onEnd_eq_ok (dom : Dom) (s : Session) (cfg : Config) (evt : DragEvent)
    (net : Request → FetchOutcome) (dd : Dom)
    (h : tryBlock (updateColumnCounts dom (some evt.fromId) (some evt.toId)) evt
        (net (mkMoveRequest cfg evt)) = .ok dd) :
    onEnd dom s cfg evt net =
      { dom := dd
        requests := [mkMoveRequest cfg evt]
        notifications := []
        reverted := false } := by
  unfold onEnd
  simp only []
  rw [h]

theorem onEnd_requests (dom : Dom) (s : Session) (cfg : Config) (evt : DragEvent)
    (net : Request → FetchOutcome) :
    (onEnd dom s cfg evt net).requests = [mkMoveRequest cfg evt] := by
  unfold onEnd
  simp only []
  split <;> rfl

theorem tryBlock_error_of_failure (dom : Dom) (evt : DragEvent) (o : FetchOutcome)
    (h : o.isFailure = true) : ∃ e, tryBlock dom evt o = .error e := by
  rcases o with m | m | d
  · exact ⟨⟨m⟩, rfl⟩
  · exact ⟨⟨m⟩, rfl⟩
  · have hok : d.ok = false := by
      have : (!d.ok) = true := h
      simpa using this
    exact ⟨⟨jsOrD d.error "Move failed"⟩, tryBlock_not_ok dom evt d hok⟩

theorem revertMove_unset (dom : Dom) (s : Session) (evt : DragEvent)
    (h : s.draggedElement = none ∨ s.originalColumn = none) :
    revertMove dom s evt = dom := by
  rcases s with ⟨sd, so, si⟩
  rcases h with h | h
  · have h' : sd = none := h
    subst h'
    cases so <;> rfl
  · have h' : so = none := h
    subst h'
    rfl

theorem revertMove_set (dom : Dom) (d : Elem) (oc : String) (si : Option Nat)
    (evt : DragEvent) :
    revertMove dom ⟨some d, some oc, si⟩ evt
      = updateColumnCounts
          (dom.insertBefore oc d
            (match si with
             | some i => (childrenOf dom oc)[i]?
             | none => none))
          (some evt.toId) (some oc) := rfl

/-! ### Concrete fixtures used by witnesses and counterexamples -/

def e1 : Elem := ⟨1, some "1"⟩

def e2 : Elem := ⟨2, some "2"⟩

def e3 : Elem := ⟨3, some "3"⟩

def e4 : Elem := ⟨4, some "4"⟩

def cfgW : Config := ⟨"token", "/tasks/\x7btaskId\x7d/move"⟩

/-! ### Claim theorems -/

/-- C10: for every column id with no badge element whose `data-column-count`
attribute matches, `updateBadgeCount` leaves the entire document unchanged
(and, being a total function, does not throw); every count-update path of
the engine therefore tolerates columns without a badge. -/
theorem updateBadgeCount_no_badge_no_op (dom : Dom) (c : String) (n : Int)
    (h : ∀ b ∈ dom.badges, b.forColumn ≠ c) :
    updateBadgeCount dom c n = dom := by
  apply updateBadgeCount_eq_of_no_badge
  unfold hasBadge
  rw [List.any_eq_false]
  intro b hb
  simp [h b hb]

def domW10 : Dom := ⟨[⟨"c", some "true", [e1]⟩], [⟨"other", "1"⟩]⟩

/-- Witness for C10 at a concrete document holding only a badge for a
different column. -/
theorem updateBadgeCount_no_badge_no_op_witness :
    updateBadgeCount domW10 "c" 3 = domW10 :=
  updateBadgeCount_no_badge_no_op domW10 "c" 3 (by decide)

/-- C9: invoking `revertMove` while no drag session is recorded (the global
`draggedElement` or `originalColumn` is `null`) performs no DOM mutation at
all — no element is moved and no badge is touched — and, being a total
function, does not throw. -/
theorem revertMove_no_session_no_op (dom : Dom) (s : Session) (evt : DragEvent)
    (h : s.draggedElement = none ∨ s.originalColumn = none) :
    revertMove dom s evt = dom :=
  revertMove_unset dom s evt h

def domW9 : Dom := ⟨[⟨"a", some "true", [e1, e2]⟩], [⟨"a", "2"⟩]⟩

/-- Witness for C9 with the initial (all-`null`) session globals. -/
theorem revertMove_no_session_no_op_witness :
    revertMove domW9 ⟨none, none, none⟩ ⟨e1, "a", "a", 0, 0⟩ = domW9 :=
  revertMove_no_session_no_op domW9 ⟨none, none, none⟩ ⟨e1, "a", "a", 0, 0⟩ (Or.inl rfl)

/-- C8: initializing against a board id with no matching root element
mutates nothing and registers no gesture handler; under an existing board,
a column is registered exactly when its `dataset.canDrag` equals `'true'`. -/
theorem initializeKanbanBoard_spec (doc : Document) (boardId tk ep : String) :
    (getElementById doc boardId = none →
      initializeKanbanBoard doc boardId tk ep = (doc, []))
    ∧ (∀ b, getElementById doc boardId = some b →
        (initializeKanbanBoard doc boardId tk ep).1 = doc
        ∧ (∀ c, c ∈ (initializeKanbanBoard doc boardId tk ep).2
            ↔ c ∈ b.columns ∧ c.canDrag = some "true")) := by
  constructor
  · intro h
    unfold initializeKanbanBoard
    rw [h]
  · intro b hb
    unfold initializeKanbanBoard
    rw [hb]
    refine ⟨rfl, ?_⟩
    intro c
    simp [List.mem_filter]

def colDrag : Column := ⟨"c1", some "true", []⟩

def colStatic : Column := ⟨"c2", none, []⟩

def docW8 : Document := ⟨[⟨"kb", [colDrag, colStatic]⟩]⟩

/-- Witness for C8: a missing board id is a no-op, and under the real board
the drag-enabled column is registered while the read-only one is not. -/
theorem initializeKanbanBoard_spec_witness :
    initializeKanbanBoard docW8 "missing" "t" "/m" = (docW8, [])
    ∧ colDrag ∈ (initializeKanbanBoard docW8 "kb" "t" "/m").2
    ∧ colStatic ∉ (initializeKanbanBoard docW8 "kb" "t" "/m").2 := by
  refine ⟨(initializeKanbanBoard_spec docW8 "missing" "t" "/m").1 (by decide), ?_, ?_⟩
  · exact (((initializeKanbanBoard_spec docW8 "kb" "t" "/m").2
      ⟨"kb", [colDrag, colStatic]⟩ (by decide)).2 colDrag).mpr ⟨by decide, by decide⟩
  · intro hc
    have := (((initializeKanbanBoard_spec docW8 "kb" "t" "/m").2
      ⟨"kb", [colDrag, colStatic]⟩ (by decide)).2 colStatic).mp hc
    exact absurd this.2 (by decide)

/-- C4: every completed drop issues exactly one move request — a `POST` to
the URL obtained by substituting the dragged task's id into the
move-endpoint template, with form-encoded body
`column_id=<destinationColumnId>&position=<destinationIndex>` and the CSRF
token header — and no second request for any outcome of that request,
in particular none after a rejection or failure. -/
theorem onEnd_single_request (dom : Dom) (s : Session) (cfg : Config)
    (evt : DragEvent) (net : Request → FetchOutcome) :
    (onEnd dom s cfg evt net).requests
      = [{ url := replaceFirst cfg.moveEndpoint "\x7btaskId\x7d" (jsStr evt.item.taskId)
           method := "POST"
           csrfToken := cfg.csrfToken
           contentType := "application/x-www-form-urlencoded"
           accept := "application/json"
           body := "column_id=" ++ evt.toId ++ "&position=" ++ toString evt.newIndex }] := by
  rw [onEnd_requests]
  rfl

/-- C3: the rollback path (the `catch` branch: `revertMove` followed by one
notification) is taken exactly when the network call rejects, the response
fails to parse, or the parsed response has `ok` not equal to `true`; on
success no rollback and no notification occur.  `onEnd` is a total Lean
function, so on every failure the handler completes with no exception
escaping it. -/
theorem onEnd_rollback_iff_failure (dom : Dom) (s : Session) (cfg : Config)
    (evt : DragEvent) (net : Request → FetchOutcome) :
    (onEnd dom s cfg evt net).reverted = (net (mkMoveRequest cfg evt)).isFailure
    ∧ (onEnd dom s cfg evt net).notifications.length
        = (if (net (mkMoveRequest cfg evt)).isFailure = true then 1 else 0) := by
  rcases hnet : net (mkMoveRequest cfg evt) with m | m | d
  · rw [onEnd_eq_error dom s cfg evt net ⟨m⟩ (by rw [hnet]; rfl)]
    exact ⟨rfl, rfl⟩
  · rw [onEnd_eq_error dom s cfg evt net ⟨m⟩ (by rw [hnet]; rfl)]
    exact ⟨rfl, rfl⟩
  · cases hok : d.ok with
    | false =>
        rw [onEnd_eq_error dom s cfg evt net ⟨jsOrD d.error "Move failed"⟩
          (by rw [hnet]; exact tryBlock_not_ok _ _ _ hok)]
        simp [FetchOutcome.isFailure, hok]
    | true =>
        rw [onEnd_eq_ok dom s cfg evt net _
          (by rw [hnet]; exact tryBlock_ok _ _ _ hok)]
        simp [FetchOutcome.isFailure, hok]

/-- C6: during rollback, when the recorded origin index is out of range of
the origin column's current children, the dragged task is appended to the
end of the origin column (after detaching from wherever it currently is),
and this defined fallback completes normally (`revertMove` is total). -/
theorem revertMove_out_of_range_appends (dom : Dom) (s : Session) (evt : DragEvent)
    (d : Elem) (oc : String) (i : Nat)
    (hd : s.draggedElement = some d) (hoc : s.originalColumn = some oc)
    (hi : s.originalIndex = some i)
    (hex : colExists dom oc = true)
    (hrange : (childrenOf dom oc).length ≤ i) :
    childrenOf (revertMove dom s evt) oc
      = (childrenOf dom oc).filter (fun e => e.nodeId != d.nodeId) ++ [d] := by
  rcases s with ⟨sd, so, si⟩
  have hd' : sd = some d := hd
  have hoc' : so = some oc := hoc
  have hi' : si = some i := hi
  subst hd' hoc' hi'
  rw [revertMove_set]
  have hnone : (childrenOf dom oc)[i]? = none := by
    rw [List.getElem?_eq_none_iff]
    exact hrange
  simp only [hnone]
  rw [childrenOf_updateColumnCounts]
  show childrenOf ((dom.removeNode d).mapCol oc (fun ls => ls ++ [d])) oc = _
  rw [childrenOf_mapCol_self _ _ _ (by rw [colExists_removeNode]; exact hex)]
  rw [childrenOf_removeNode]

def domW6 : Dom := ⟨[⟨"a", none, [e1]⟩, ⟨"b", none, [e2]⟩], []⟩

/-- Witness for C6: origin column `a` currently holds one child while the
recorded origin index is 5, so the dragged task is appended. -/
theorem revertMove_out_of_range_appends_witness :
    childrenOf (revertMove domW6 ⟨some e2, some "a", some 5⟩ ⟨e2, "a", "b", 0, 0⟩) "a"
      = (childrenOf domW6 "a").filter (fun e => e.nodeId != e2.nodeId) ++ [e2] :=
  revertMove_out_of_range_appends domW6 ⟨some e2, some "a", some 5⟩ ⟨e2, "a", "b", 0, 0⟩
    e2 "a" 5 rfl rfl rfl (by decide) (by decide)

/-- C2 (amended): for a drop whose response parses with `ok = true` and
whose origin and destination columns are distinct, each of
`from_count`/`to_count` that is present overwrites the matching badge with
exactly the server value, and a field that is absent leaves the optimistic
badge value in place.  (When origin and destination coincide the two roles
share one badge, so a present `from_count` also determines the
"destination" badge — the unamended per-field claim fails there.) -/
theorem commit_server_counts_amended (dom : Dom) (s : Session) (cfg : Config)
    (evt : DragEvent) (net : Request → FetchOutcome) (data : MoveResponse)
    (hnet : net (mkMoveRequest cfg evt) = .parsed data) (hok : data.ok = true)
    (hne : evt.fromId ≠ evt.toId) :
    (∀ n, data.from_count = some n → hasBadge dom evt.fromId = true →
        badgeText (onEnd dom s cfg evt net).dom evt.fromId = some (toString n))
    ∧ (data.from_count = none →
        badgeText (onEnd dom s cfg evt net).dom evt.fromId
          = badgeText (updateColumnCounts dom (some evt.fromId) (some evt.toId)) evt.fromId)
    ∧ (∀ n, data.to_count = some n → hasBadge dom evt.toId = true →
        badgeText (onEnd dom s cfg evt net).dom evt.toId = some (toString n))
    ∧ (data.to_count = none →
        badgeText (onEnd dom s cfg evt net).dom evt.toId
          = badgeText (updateColumnCounts dom (some evt.fromId) (some evt.toId)) evt.toId) := by
  have hdom : (onEnd dom s cfg evt net).dom
      = commitCounts (updateColumnCounts dom (some evt.fromId) (some evt.toId)) evt data := by
    rw [onEnd_eq_ok dom s cfg evt net _ (by rw [hnet]; exact tryBlock_ok _ _ _ hok)]
  refine ⟨?_, ?_, ?_, ?_⟩
  · intro n hfc hb
    rw [hdom]
    unfold commitCounts
    rw [hfc]
    cases htc : data.to_count with
    | none =>
        simp only []
        rw [badgeText_updateBadgeCount_self]
        rw [hasBadge_updateColumnCounts]
        exact hb
    | some m =>
        simp only []
        rw [badgeText_updateBadgeCount_ne _ _ _ _ hne]
        rw [badgeText_updateBadgeCount_self]
        rw [hasBadge_updateColumnCounts]
        exact hb
  · intro hfc
    rw [hdom]
    unfold commitCounts
    rw [hfc]
    cases htc : data.to_count with
    | none => rfl
    | some m =>
        simp only []
        rw [badgeText_updateBadgeCount_ne _ _ _ _ hne]
  · intro n htc hb
    rw [hdom]
    unfold commitCounts
    rw [htc]
    cases hfc : data.from_count with
    | none =>
        simp only []
        rw [badgeText_updateBadgeCount_self]
        rw [hasBadge_updateColumnCounts]
        exact hb
    | some m =>
        simp only []
        rw [badgeText_updateBadgeCount_self]
        rw [hasBadge_updateBadgeCount, hasBadge_updateColumnCounts]
        exact hb
  · intro htc
    rw [hdom]
    unfold commitCounts
    rw [htc]
    cases hfc : data.from_count with
    | none => rfl
    | some m =>
        simp only []
        rw [badgeText_updateBadgeCount_ne _ _ _ _ (fun hh => hne hh.symm)]

def domC2 : Dom := ⟨[⟨"c", some "true", [e1, e2]⟩], [⟨"c", "2"⟩]⟩

def evtC2 : DragEvent := ⟨e1, "c", "c", 0, 1⟩

def netC2 : Request → FetchOutcome := fun _ => .parsed ⟨true, none, some 5, none⟩

/-- Counterexample to C2 as stated: a drop within one column, `ok = true`,
`from_count = 5`, `to_count` absent.  The destination column is the origin
column, its optimistic badge value was `"2"`, yet the final badge reads
`"5"`: the absent `to_count` did not leave the destination's optimistic
badge value in place. -/
theorem commit_server_counts_cex :
    badgeText (onEnd (performDrop domC2 evtC2) (onStart evtC2) cfgW evtC2 netC2).dom
        evtC2.toId = some "5"
    ∧ badgeText (updateColumnCounts (performDrop domC2 evtC2)
        (some evtC2.fromId) (some evtC2.toId)) evtC2.toId = some "2"
    ∧ badgeText (onEnd (performDrop domC2 evtC2) (onStart evtC2) cfgW evtC2 netC2).dom
          evtC2.toId
        ≠ badgeText (updateColumnCounts (performDrop domC2 evtC2)
          (some evtC2.fromId) (some evtC2.toId)) evtC2.toId := by
  refine ⟨by decide, by decide, by decide⟩

def domC2w : Dom := ⟨[⟨"a", some "true", [e2]⟩, ⟨"b", some "true", [e1]⟩],
  [⟨"a", "0"⟩, ⟨"b", "0"⟩]⟩

def evtC2w : DragEvent := ⟨e1, "a", "b", 0, 0⟩

def netC2w : Request → FetchOutcome := fun _ => .parsed ⟨true, none, some 7, none⟩

/-- Witness for C2 (amended): with distinct columns, `from_count = 7`
lands on the origin badge and the absent `to_count` leaves the destination
badge at its optimistic value. -/
theorem commit_server_counts_amended_witness :
    badgeText (onEnd domC2w ⟨some e1, some "a", some 0⟩ cfgW evtC2w netC2w).dom "a"
        = some (toString (7 : Int))
    ∧ badgeText (onEnd domC2w ⟨some e1, some "a", some 0⟩ cfgW evtC2w netC2w).dom "b"
        = badgeText (updateColumnCounts domC2w (some "a") (some "b")) "b" := by
  have h := commit_server_counts_amended domC2w ⟨some e1, some "a", some 0⟩ cfgW evtC2w
    netC2w ⟨true, none, some 7, none⟩ rfl rfl (by decide)
  exact ⟨h.1 7 rfl (by decide), h.2.2.2 rfl⟩

/-- C7 (amended): on rollback the notification message equals the
server-supplied `error` string when the response contained a non-empty one;
a rejection whose `error` is absent or empty yields `'Move failed'`; a
transport rejection or a parse failure yields the thrown error's own
message, or `'Could not move task'` when that message is empty — in no
failure case without a non-empty server `error` is a server-supplied string
shown.  (The unamended claim fails when the response carries the empty
error string: JS `||` treats it as falsy, so the fallback is shown.) -/
theorem rollback_message_amended (dom : Dom) (s : Session) (cfg : Config)
    (evt : DragEvent) (net : Request → FetchOutcome) :
    (∀ d e, net (mkMoveRequest cfg evt) = .parsed d → d.ok = false →
        d.error = some e → e ≠ "" →
        (onEnd dom s cfg evt net).notifications = [(e, "error")])
    ∧ (∀ d, net (mkMoveRequest cfg evt) = .parsed d → d.ok = false →
        (d.error = none ∨ d.error = some "") →
        (onEnd dom s cfg evt net).notifications = [("Move failed", "error")])
    ∧ (∀ m, net (mkMoveRequest cfg evt) = .reject m →
        (onEnd dom s cfg evt net).notifications
          = [(jsOrS m "Could not move task", "error")])
    ∧ (∀ m, net (mkMoveRequest cfg evt) = .parseError m →
        (onEnd dom s cfg evt net).notifications
          = [(jsOrS m "Could not move task", "error")]) := by
  refine ⟨?_, ?_, ?_, ?_⟩
  · intro d e hnet hok herr hne
    rw [onEnd_eq_error dom s cfg evt net ⟨jsOrD d.error "Move failed"⟩
      (by rw [hnet]; exact tryBlock_not_ok _ _ _ hok)]
    have hbe : (e == "") = false := beq_eq_false_iff_ne.mpr hne
    have h1 : jsOrD d.error "Move failed" = e := by
      rw [herr]
      unfold jsOrD
      simp only [hbe, Bool.false_eq_true, if_false]
    have h2 : jsOrS e "Could not move task" = e := by
      unfold jsOrS
      simp only [hbe, Bool.false_eq_true, if_false]
    show [(jsOrS (jsOrD d.error "Move failed") "Could not move task", "error")] = _
    rw [h1, h2]
  · intro d hnet hok herr
    rw [onEnd_eq_error dom s cfg evt net ⟨jsOrD d.error "Move failed"⟩
      (by rw [hnet]; exact tryBlock_not_ok _ _ _ hok)]
    have h1 : jsOrD d.error "Move failed" = "Move failed" := by
      rcases herr with h | h <;> rw [h] <;> rfl
    show [(jsOrS (jsOrD d.error "Move failed") "Could not move task", "error")] = _
    rw [h1]
    rfl
  · intro m hnet
    rw [onEnd_eq_error dom s cfg evt net ⟨m⟩ (by rw [hnet]; rfl)]
  · intro m hnet
    rw [onEnd_eq_error dom s cfg evt net ⟨m⟩ (by rw [hnet]; rfl)]

def domC7 : Dom := ⟨[⟨"a", some "true", [e2]⟩, ⟨"b", some "true", [e1]⟩],
  [⟨"a", "0"⟩, ⟨"b", "0"⟩]⟩

def evtC7 : DragEvent := ⟨e1, "a", "b", 0, 0⟩

def netC7 : Request → FetchOutcome := fun _ => .parsed ⟨false, some "", none, none⟩

/-- Counterexample to C7 as stated: the response contains the error string
`""`, yet the notification shown is the generic `'Move failed'`, not that
server-supplied string. -/
theorem rollback_message_cex :
    (onEnd domC7 ⟨some e1, some "a", some 0⟩ cfgW evtC7 netC7).notifications
        = [("Move failed", "error")]
    ∧ (onEnd domC7 ⟨some e1, some "a", some 0⟩ cfgW evtC7 netC7).notifications
        ≠ [("", "error")] := by
  refine ⟨by decide, by decide⟩

def netC7w : Request → FetchOutcome := fun _ => .parsed ⟨false, some "locked", none, none⟩

def netC7r : Request → FetchOutcome := fun _ => .reject ""

/-- Witness for C7 (amended): the non-empty server reason `"locked"` is
shown verbatim, and a transport rejection with an empty thrown message
falls back to `'Could not move task'`. -/
theorem rollback_message_amended_witness :
    (onEnd domC7 ⟨some e1, some "a", some 0⟩ cfgW evtC7 netC7w).notifications
        = [("locked", "error")]
    ∧ (onEnd domC7 ⟨some e1, some "a", some 0⟩ cfgW evtC7 netC7r).notifications
        = [(jsOrS "" "Could not move task", "error")] :=
  ⟨(rollback_message_amended domC7 ⟨some e1, some "a", some 0⟩ cfgW evtC7 netC7w).1
      ⟨false, some "locked", none, none⟩ "locked" rfl rfl rfl (by decide),
    (rollback_message_amended domC7 ⟨some e1, some "a", some 0⟩ cfgW evtC7 netC7r).2.2.1
      "" rfl⟩

/-- C5 (amended): after the optimistic update on drop, the badge of the
origin column and of the destination column (one badge when they coincide)
equals the number of task elements physically present; after the count
recomputation that ends a rollback, the same holds for the post-drop column
`evt.to` and for the recorded origin column; after the commit of server
counts, each affected badge equals the server-supplied value — which is not
in general the number of task elements physically present (the unamended
claim fails there). -/
theorem badge_matches_contents_amended (dom : Dom) (s : Session) (cfg : Config)
    (evt : DragEvent) (net : Request → FetchOutcome) :
    ((hasBadge dom evt.fromId = true →
        badgeText (updateColumnCounts dom (some evt.fromId) (some evt.toId)) evt.fromId
          = some (toString (taskCount
              (updateColumnCounts dom (some evt.fromId) (some evt.toId)) evt.fromId)))
      ∧ (hasBadge dom evt.toId = true →
        badgeText (updateColumnCounts dom (some evt.fromId) (some evt.toId)) evt.toId
          = some (toString (taskCount
              (updateColumnCounts dom (some evt.fromId) (some evt.toId)) evt.toId))))
    ∧ ((net (mkMoveRequest cfg evt)).isFailure = true →
        (hasBadge dom evt.toId = true →
          badgeText (onEnd dom s cfg evt net).dom evt.toId
            = some (toString (taskCount (onEnd dom s cfg evt net).dom evt.toId)))
        ∧ (∀ oc, s.originalColumn = some oc → s.draggedElement.isSome = true →
            hasBadge dom oc = true →
            badgeText (onEnd dom s cfg evt net).dom oc
              = some (toString (taskCount (onEnd dom s cfg evt net).dom oc))))
    ∧ (∀ d2, net (mkMoveRequest cfg evt) = .parsed d2 → d2.ok = true →
        (∀ n, d2.to_count = some n → hasBadge dom evt.toId = true →
          badgeText (onEnd dom s cfg evt net).dom evt.toId = some (toString n))
        ∧ (∀ n, d2.from_count = some n →
            (evt.fromId ≠ evt.toId ∨ d2.to_count = none) →
            hasBadge dom evt.fromId = true →
            badgeText (onEnd dom s cfg evt net).dom evt.fromId = some (toString n))) := by
  obtain ⟨sd, so, si⟩ := s
  refine ⟨⟨?_, ?_⟩, ?_, ?_⟩
  · intro hb
    rw [taskCount_updateColumnCounts]
    exact badgeText_updateColumnCounts_from dom evt.fromId evt.toId hb
  · intro hb
    rw [taskCount_updateColumnCounts]
    exact badgeText_updateColumnCounts_to dom evt.fromId evt.toId hb
  · intro hf
    obtain ⟨e, he⟩ := tryBlock_error_of_failure
      (updateColumnCounts dom (some evt.fromId) (some evt.toId)) evt
      (net (mkMoveRequest cfg evt)) hf
    have hdomE : (onEnd dom ⟨sd, so, si⟩ cfg evt net).dom
        = revertMove (updateColumnCounts dom (some evt.fromId) (some evt.toId))
            ⟨sd, so, si⟩ evt := by
      rw [onEnd_eq_error dom ⟨sd, so, si⟩ cfg evt net e he]
    constructor
    · intro hb
      rw [hdomE]
      cases sd with
      | none =>
          rw [revertMove_unset _ _ _ (Or.inl rfl)]
          rw [taskCount_updateColumnCounts]
          exact badgeText_updateColumnCounts_to dom evt.fromId evt.toId hb
      | some d0 =>
          cases so with
          | none =>
              rw [revertMove_unset _ _ _ (Or.inr rfl)]
              rw [taskCount_updateColumnCounts]
              exact badgeText_updateColumnCounts_to dom evt.fromId evt.toId hb
          | some oc0 =>
              rw [revertMove_set]
              rw [taskCount_updateColumnCounts]
              refine badgeText_updateColumnCounts_from _ evt.toId oc0 ?_
              rw [hasBadge_insertBefore, hasBadge_updateColumnCounts]
              exact hb
    · intro oc hoc hdsome hb
      rw [hdomE]
      have hso : so = some oc := hoc
      subst hso
      cases sd with
      | none => simp at hdsome
      | some d0 =>
          rw [revertMove_set]
          rw [taskCount_updateColumnCounts]
          refine badgeText_updateColumnCounts_to _ evt.toId oc ?_
          rw [hasBadge_insertBefore, hasBadge_updateColumnCounts]
          exact hb
  · intro d2 hnet hok
    have hdomS : (onEnd dom ⟨sd, so, si⟩ cfg evt net).dom
        = commitCounts (updateColumnCounts dom (some evt.fromId) (some evt.toId))
            evt d2 := by
      rw [onEnd_eq_ok dom ⟨sd, so, si⟩ cfg evt net _
        (by rw [hnet]; exact tryBlock_ok _ _ _ hok)]
    constructor
    · intro n htc hb
      rw [hdomS]
      unfold commitCounts
      rw [htc]
      cases hfc : d2.from_count with
      | none =>
          simp only []
          rw [badgeText_updateBadgeCount_self]
          rw [hasBadge_updateColumnCounts]
          exact hb
      | some m =>
          simp only []
          rw [badgeText_updateBadgeCount_self]
          rw [hasBadge_updateBadgeCount, hasBadge_updateColumnCounts]
          exact hb
    · intro n hfc hd hb
      rw [hdomS]
      unfold commitCounts
      rw [hfc]
      cases htc : d2.to_count with
      | none =>
          simp only []
          rw [badgeText_updateBadgeCount_self]
          rw [hasBadge_updateColumnCounts]
          exact hb
      | some m =>
          rcases hd with hne | hcontra
          · simp only []
            rw [badgeText_updateBadgeCount_ne _ _ _ _ hne]
            rw [badgeText_updateBadgeCount_self]
            rw [hasBadge_updateColumnCounts]
            exact hb
          · rw [htc] at hcontra
            exact absurd hcontra (by simp)

def domC5 : Dom := ⟨[⟨"a", some "true", [e1]⟩, ⟨"b", some "true", [e2]⟩],
  [⟨"a", "1"⟩, ⟨"b", "1"⟩]⟩

def evtC5 : DragEvent := ⟨e1, "a", "b", 0, 0⟩

def netC5 : Request → FetchOutcome := fun _ => .parsed ⟨true, none, some 99, some 99⟩

/-- Counterexample to C5 as stated: the server commits `from_count = 99`
into the origin badge while the origin column physically holds 0 task
elements, so after the commit mutation settles the displayed badge does not
equal the number of task elements present. -/
theorem badge_matches_contents_cex :
    badgeText (onEnd (performDrop domC5 evtC5) (onStart evtC5) cfgW evtC5 netC5).dom "a"
        = some "99"
    ∧ taskCount (onEnd (performDrop domC5 evtC5) (onStart evtC5) cfgW evtC5 netC5).dom "a"
        = 0
    ∧ badgeText (onEnd (performDrop domC5 evtC5) (onStart evtC5) cfgW evtC5 netC5).dom "a"
        ≠ some (toString (taskCount
            (onEnd (performDrop domC5 evtC5) (onStart evtC5) cfgW evtC5 netC5).dom "a")) := by
  refine ⟨by decide, by decide, by decide⟩

def netC5w : Request → FetchOutcome := fun _ => .reject "NetworkError"

/-- Witness for C5 (amended): a cross-column drop that fails; after the
rollback both the post-drop destination column and the origin column show
badges equal to their physical task counts. -/
theorem badge_matches_contents_amended_witness :
    badgeText (onEnd (performDrop domC5 evtC5) (onStart evtC5) cfgW evtC5 netC5w).dom "b"
        = some (toString (taskCount
            (onEnd (performDrop domC5 evtC5) (onStart evtC5) cfgW evtC5 netC5w).dom "b"))
    ∧ badgeText (onEnd (performDrop domC5 evtC5) (onStart evtC5) cfgW evtC5 netC5w).dom "a"
        = some (toString (taskCount
            (onEnd (performDrop domC5 evtC5) (onStart evtC5) cfgW evtC5 netC5w).dom "a")) := by
  have h := (badge_matches_contents_amended (performDrop domC5 evtC5) (onStart evtC5)
    cfgW evtC5 netC5w).2.1 (by decide)
  exact ⟨h.1 (by decide), h.2 "a" rfl rfl (by decide)⟩

def domC1 : Dom := ⟨[⟨"c", some "true", [e1, e2, e3, e4]⟩], [⟨"c", "4"⟩]⟩

def evtC1 : DragEvent := ⟨e3, "c", "c", 2, 0⟩

def netC1 : Request → FetchOutcome :=
  fun _ => .reject "NetworkError when attempting to fetch resource."

/-- C1 (the code's actual behavior at the failing input): a drop within one
column from child index 2 to index 0 whose request fails.  The drag-start
snapshot records index 2, but after `revertMove` the dragged task sits at
index 1 of the origin column: `insertBefore` computes its reference node
from a child list in which the dragged task still precedes the recorded
index, so the reinsertion lands one slot early and the rollback is not
exact. -/
theorem revert_same_column_not_exact :
    (onStart evtC1).originalIndex = some 2
    ∧ childrenOf (onEnd (performDrop domC1 evtC1) (onStart evtC1) cfgW evtC1 netC1).dom "c"
        = [e1, e3, e2, e4]
    ∧ nodeIndexIn
        (childrenOf (onEnd (performDrop domC1 evtC1) (onStart evtC1) cfgW evtC1 netC1).dom "c")
        e3 = some 1 := by
  refine ⟨by decide, by decide, by decide⟩
